import Mathlib

/-
Shallow embedding of the document-to-audiobook pipeline of
atrifat/mini-bootcamp-starter-code (src/server/api/routers/document.ts,
trigger.config.ts).  External services (PDF parsing, speech synthesis,
object storage, the database driver) are modelled as explicit oracle
arguments; the database is an explicit record of row lists threaded
through each operation.  JavaScript Promise.all over already-started
insert promises is modelled by attempting every element and reporting
the first rejection, since all promises run to completion regardless of
a sibling rejection.
-/

namespace MiniBootcamp

/-- Row of the documents table: documents(id, name, created_by). -/
structure DocumentRow where
  id : Nat
  name : String
  createdById : String
  deriving Repr, DecidableEq

/-- Row of the pages table: pages(id, document_id, page_number, content). -/
structure PageRow where
  id : Nat
  documentId : Nat
  pageNumber : Nat
  content : String
  deriving Repr, DecidableEq

/-- Row of the audio_files table: audio_files(id, page_id, file_name, file_path). -/
structure AudioFileRow where
  id : Nat
  pageId : Nat
  fileName : String
  filePath : String
  deriving Repr, DecidableEq

/-- The database state (the Ledger): three tables plus a fresh-id counter
standing for the serial primary-key allocator. -/
structure Db where
  documents : List DocumentRow
  pages : List PageRow
  audioFiles : List AudioFileRow
  nextId : Nat
  deriving Repr, DecidableEq

/-- One extracted page as produced by getPdfContent: number and content. -/
structure PdfPage where
  number : Nat
  content : String
  deriving Repr, DecidableEq

/-- docs.map((doc, index) => ({number: index + 1, content: doc.getText()}))
from getPdfContent: assigns 1-based numbers by position, starting the
index at the first argument. -/
def numberPages : Nat → List String → List PdfPage
  | _, [] => []
  | i, t :: rest => ⟨i + 1, t⟩ :: numberPages (i + 1) rest

/-- getPdfContent: the LlamaParseReader call is the oracle argument
(error when the reader throws, ok with the list of parsed page texts
otherwise).  On reader success the pages are numbered from 1; a reader
result of zero documents yields ok with an empty page list (no error is
raised for it).  On reader failure the error message is wrapped. -/
def getPdfContent (readerDocs : Except String (List String)) :
    Except String (List PdfPage) :=
  match readerDocs with
  | .error cause => .error ("Failed to process PDF document: " ++ cause)
  | .ok texts => .ok (numberPages 0 texts)

/-- Result of the create mutation on success: documentId and the saved
page rows. -/
structure CreateResult where
  documentId : Nat
  pages : List PageRow
  deriving Repr, DecidableEq

/-- The Promise.all over per-page inserts in create.  Every insert is
attempted (all promises start before any rejection is observed); the
inserts that succeed append their row and consume a fresh id; the
overall outcome records the first failing array index, if any.
Arguments: document id, per-index insert-success oracle, database,
remaining pages, current array index. -/
def insertPages (docId : Nat) (pageInsertOk : Nat → Bool) :
    Db → List PdfPage → Nat → Db × List PageRow × Option Nat
  | db, [], _ => (db, [], none)
  | db, p :: rest, idx =>
    if pageInsertOk idx then
      let row : PageRow := ⟨db.nextId, docId, p.number, p.content⟩
      let db1 : Db := { db with pages := db.pages ++ [row], nextId := db.nextId + 1 }
      let r := insertPages docId pageInsertOk db1 rest (idx + 1)
      (r.1, row :: r.2.1, r.2.2)
    else
      let r := insertPages docId pageInsertOk db rest (idx + 1)
      (r.1, r.2.1, some idx)

/-- The document insert of create: appends the Document row under a
fresh id (ctx.db.insert(documents).values({name, createdById})). -/
def afterDocInsert (db : Db) (userId name : String) : Db :=
  { db with
    documents := db.documents ++ [⟨db.nextId, name, userId⟩],
    nextId := db.nextId + 1 }

/-- The create mutation.  Oracles: apiKeyOk (ELEVENLABS_API_KEY set),
fetchOk (response.ok of the PDF fetch), readerDocs (parse outcome),
docInsertOk (the document insert returns a row), pageInsertOk (per-index
page-insert success).  The document row is inserted before any page;
page inserts then run under Promise.all; any failure is wrapped by the
outer catch, with no rollback of rows already inserted. -/
def create (db : Db) (userId name : String) (apiKeyOk fetchOk : Bool)
    (readerDocs : Except String (List String)) (docInsertOk : Bool)
    (pageInsertOk : Nat → Bool) : Db × Except String CreateResult :=
  if apiKeyOk = false then
    (db, .error "ElevenLabs API key is not configured")
  else if fetchOk = false then
    (db, .error "Failed to create document: Failed to fetch PDF file")
  else
    match getPdfContent readerDocs with
    | .error e => (db, .error ("Failed to create document: " ++ e))
    | .ok pdfPages =>
      if docInsertOk = false then
        (db, .error "Failed to create document: Failed to create document")
      else
        let docId := db.nextId
        let db1 : Db := afterDocInsert db userId name
        let r := insertPages docId pageInsertOk db1 pdfPages 0
        match r.2.2 with
        | none => (r.1, .ok ⟨docId, r.2.1⟩)
        | some i =>
          (r.1, .error ("Failed to create document: Failed to process page "
            ++ toString (i + 1) ++ ": Failed to save page"))

/-- Result entry of generateAudioBook for one page: either
(pageId, success: true, audioFile) or (pageId, success: false, error). -/
inductive PageResult where
  | success (pageId : Nat) (audioFile : Option AudioFileRow)
  | failure (pageId : Nat) (error : String)
  deriving Repr, DecidableEq

/-- The pageId field present in both result shapes. -/
def PageResult.pageId : PageResult → Nat
  | .success i _ => i
  | .failure i _ => i

/-- The success flag of a result entry. -/
def PageResult.isSuccess : PageResult → Bool
  | .success _ _ => true
  | .failure _ _ => false

/-- generateAudio: the elevenlabs.generate call is the synthesize oracle
(text and voice to a stream of byte chunks, or a thrown error).  The
stream is fully buffered by concatenating its chunks; an oracle error is
wrapped.  There is no check on the text: empty text goes to the oracle
like any other. -/
def generateAudio (synthesize : String → String → Except String (List (List Nat)))
    (text voice : String) : Except String (List Nat) :=
  match synthesize text voice with
  | .ok chunks => .ok chunks.flatten
  | .error e => .error ("Failed to generate audio: " ++ e)

/-- saveAudioFile: the S3 Upload is the uploadOutcome oracle.  On success
the returned locator is the public URL of the audio/fileName key in the
bucket; on failure the error is wrapped. -/
def saveAudioFile (uploadOutcome : Except String Unit) (bucket fileName : String) :
    Except String String :=
  match uploadOutcome with
  | .ok _ => .ok ("https://fly.storage.tigris.dev/" ++ bucket ++ "/audio/" ++ fileName)
  | .error e => .error ("Failed to upload audio file: " ++ e)

/-- External-service oracles of the generation path, keyed as the code
invokes them: synthesize by (text, voice), upload and the audio_files
insert by the page id being processed. -/
structure GenOracles where
  synthesize : String → String → Except String (List (List Nat))
  upload : Nat → Except String Unit
  insertAudio : Nat → Except String Unit

/-- The generated object key: documentId-pageNumber-timestamp.mp3, with
documentId and pageNumber read from the page row. -/
def audioFileName (p : PageRow) (now : Nat) : String :=
  toString p.documentId ++ "-" ++ toString p.pageNumber ++ "-" ++ toString now ++ ".mp3"

/-- One arm of the Promise.all of generateAudioBook: synthesize, store,
then insert the audio_files row; the surrounding try/catch turns any
step failure into a failure entry for this page, touching nothing else. -/
def runPage (o : GenOracles) (bucket voice : String) (now : Nat) (db : Db)
    (p : PageRow) : Db × PageResult :=
  match generateAudio o.synthesize p.content voice with
  | .error e => (db, .failure p.id e)
  | .ok _audioBuffer =>
    let fileName := audioFileName p now
    match saveAudioFile (o.upload p.id) bucket fileName with
    | .error e => (db, .failure p.id e)
    | .ok audioPath =>
      match o.insertAudio p.id with
      | .error e => (db, .failure p.id e)
      | .ok _ =>
        let row : AudioFileRow := ⟨db.nextId, p.id, fileName, audioPath⟩
        ({ db with
           audioFiles := db.audioFiles ++ [row],
           nextId := db.nextId + 1 },
         .success p.id (some row))

/-- The Promise.all over the selected pages, one result entry per page. -/
def runPages (o : GenOracles) (bucket voice : String) (now : Nat) :
    Db → List PageRow → Db × List PageResult
  | db, [] => (db, [])
  | db, p :: rest =>
    let r1 := runPage o bucket voice now db p
    let r2 := runPages o bucket voice now r1.1 rest
    (r2.1, r1.2 :: r2.2)

/-- The generateAudioBook mutation: after the api-key guard, selects the
stored pages whose id is in pageIds (the input documentId takes no part
in the selection) and processes each one. -/
def generateAudioBook (o : GenOracles) (bucket : String) (db : Db)
    (documentId : Nat) (pageIds : List Nat) (voice : String) (now : Nat)
    (apiKeyOk : Bool) : Db × Except String (List PageResult) :=
  if apiKeyOk = false then
    (db, .error "ElevenLabs API key is not configured")
  else
    let pagesToRegenerate := db.pages.filter (fun p => pageIds.contains p.id)
    let r := runPages o bucket voice now db pagesToRegenerate
    (r.1, .ok r.2)

/-- Boolean success test of an Except value. -/
def exceptOk {α β : Type} : Except α β → Bool
  | .ok _ => true
  | .error _ => false

/-- All three steps of one page attempt succeed. -/
def attemptOk (o : GenOracles) (voice : String) (p : PageRow) : Bool :=
  exceptOk (generateAudio o.synthesize p.content voice) &&
  exceptOk (o.upload p.id) && exceptOk (o.insertAudio p.id)

/-- The retries block of trigger.config.ts: the default retry policy for
every task (maxAttempts, minTimeoutInMs, maxTimeoutInMs, factor,
randomize); no error kind is exempted from it. -/
structure TriggerRetryConfig where
  maxAttempts : Nat
  minTimeoutInMs : Nat
  maxTimeoutInMs : Nat
  factor : Nat
  randomize : Bool
  deriving Repr, DecidableEq

/-- The concrete default of trigger.config.ts. -/
def triggerDefaultRetry : TriggerRetryConfig := ⟨3, 1000, 10000, 2, true⟩

/-- An empty database, used by concrete evaluations. -/
def db0 : Db := ⟨[], [], [], 0⟩

/-- Oracles where every external call succeeds. -/
def oAllOk : GenOracles :=
  ⟨fun _ _ => .ok [[0]], fun _ => .ok (), fun _ => .ok ()⟩

/-- Oracles where synthesis succeeds exactly on the text "good". -/
def oMixed : GenOracles :=
  ⟨fun text _ => if text = "good" then .ok [[1]] else .error "quota exceeded",
   fun _ => .ok (), fun _ => .ok ()⟩

/-- Database with one document owning one page (page id 7). -/
def db3 : Db := ⟨[⟨1, "Doc", "alice"⟩], [⟨7, 1, 1, "hello"⟩], [], 10⟩

/-- Database with two documents; page id 5 belongs to document 2. -/
def db4 : Db :=
  ⟨[⟨1, "A", "alice"⟩, ⟨2, "B", "bob"⟩], [⟨5, 2, 1, "text"⟩], [], 10⟩

/-- Database with one document owning one page with empty content. -/
def db6 : Db := ⟨[⟨1, "Doc", "alice"⟩], [⟨3, 1, 1, ""⟩], [], 10⟩

/-- Database with one document owning two pages: page 1 has content
"good", page 2 has content "bad". -/
def db7 : Db :=
  ⟨[⟨1, "D", "alice"⟩], [⟨1, 1, 1, "good"⟩, ⟨2, 1, 2, "bad"⟩], [], 10⟩

/-- The result object a drizzle delete call resolves to: the driver
query result carrying its affected-row count. -/
structure DrizzleDeleteResult where
  rowCount : Nat
  deriving Repr, DecidableEq

/-- JavaScript truthiness of the driver result object, as tested by the
checks of the delete mutation: an object is always truthy, whatever its
rowCount, so the test never observes the affected-row count. -/
def jsTruthy (_ : DrizzleDeleteResult) : Bool := true

/-- The page ids the delete mutation associates with the document:
pages of the findFirst result when the document exists, the empty list
otherwise (documentResult?.pages ?? []). -/
def associatedPagesId (db : Db) (id : Nat) : List Nat :=
  match db.documents.find? (fun d => d.id == id) with
  | some _ => (db.pages.filter (fun p => p.documentId == id)).map (fun p => p.id)
  | none => []

/-- Step 1 of delete: remove the audio rows of the listed page ids
(attempted only when the id list is nonempty), then apply the
truthiness check of the code to the returned result object. -/
def deleteAudioStep (db : Db) (pageIds : List Nat) : Db × Except String Unit :=
  if pageIds.isEmpty then (db, .ok ())
  else
    let removed := db.audioFiles.filter (fun a => pageIds.contains a.pageId)
    let db1 : Db :=
      { db with audioFiles := db.audioFiles.filter (fun a => !(pageIds.contains a.pageId)) }
    if jsTruthy ⟨removed.length⟩ then (db1, .ok ())
    else (db1, .error "Failed to delete audio files associated with the document.")

/-- Step 2 of delete: remove the pages of the document, then apply the
truthiness check to the result object. -/
def deletePagesStep (db : Db) (id : Nat) : Db × Except String Unit :=
  let removed := db.pages.filter (fun p => p.documentId == id)
  let db1 : Db :=
    { db with pages := db.pages.filter (fun p => !(p.documentId == id)) }
  if jsTruthy ⟨removed.length⟩ then (db1, .ok ())
  else (db1, .error "Failed to delete pages associated with the document.")

/-- Step 3 of delete: remove the document row itself, then apply the
truthiness check to the result object, which is also the return value. -/
def deleteDocStep (db : Db) (id : Nat) : Db × Except String DrizzleDeleteResult :=
  let removed := db.documents.filter (fun d => d.id == id)
  let db1 : Db :=
    { db with documents := db.documents.filter (fun d => !(d.id == id)) }
  if jsTruthy ⟨removed.length⟩ then (db1, .ok ⟨removed.length⟩)
  else (db1, .error "Failed to delete document.")

/-- The delete mutation.  The caller identity is received (the session
user) but, like the hardcoded hasPermission flag, takes no part in any
decision; the three delete steps run in order AudioFiles, Pages,
Document, each followed by the truthiness check of the code; a step
error would be wrapped by the outer catch. -/
def deleteDocument (caller : String) (db : Db) (id : Nat) :
    Db × Except String DrizzleDeleteResult :=
  let hasPermission := true
  if hasPermission = false then
    (db, .error "Failed to delete document: You do not have permission to delete this document.")
  else
    match deleteAudioStep db (associatedPagesId db id) with
    | (db1, .error e) => (db1, .error ("Failed to delete document: " ++ e))
    | (db1, .ok _) =>
      match deletePagesStep db1 id with
      | (db2, .error e) => (db2, .error ("Failed to delete document: " ++ e))
      | (db2, .ok _) =>
        match deleteDocStep db2 id with
        | (db3, .error e) => (db3, .error ("Failed to delete document: " ++ e))
        | (db3, .ok r) => (db3, .ok r)

/-! Basic lemmas about insertPages and numberPages. -/

/-- insertPages never touches the documents table. -/
theorem insertPages_documents (docId : Nat) (ok : Nat → Bool) :
    ∀ (ps : List PdfPage) (db : Db) (idx : Nat),
      (insertPages docId ok db ps idx).1.documents = db.documents := by
  intro ps
  induction ps with
  | nil => intro db idx; rfl
  | cons p rest ih =>
    intro db idx
    by_cases h : ok idx
    · simp only [insertPages, h, if_pos]
      exact ih _ _
    · simp only [insertPages, h, if_neg, Bool.false_eq_true, not_false_iff]
      exact ih _ _

/-- insertPages only appends to the pages table. -/
theorem insertPages_pages_append (docId : Nat) (ok : Nat → Bool) :
    ∀ (ps : List PdfPage) (db : Db) (idx : Nat),
      ∃ newRows, (insertPages docId ok db ps idx).1.pages = db.pages ++ newRows := by
  intro ps
  induction ps with
  | nil => intro db idx; exact ⟨[], by simp [insertPages]⟩
  | cons p rest ih =>
    intro db idx
    by_cases h : ok idx
    · simp only [insertPages, h, if_pos]
      obtain ⟨nr, hnr⟩ := ih { db with pages := db.pages ++ [⟨db.nextId, docId, p.number, p.content⟩], nextId := db.nextId + 1 } (idx + 1)
      exact ⟨⟨db.nextId, docId, p.number, p.content⟩ :: nr, by simpa using hnr⟩
    · simp only [insertPages, h, if_neg, Bool.false_eq_true, not_false_iff]
      exact ih _ _

/-- When some index within range fails, insertPages reports a failure. -/
theorem insertPages_err_of_fail (docId : Nat) (ok : Nat → Bool) :
    ∀ (ps : List PdfPage) (db : Db) (idx : Nat),
      (∃ j, j < ps.length ∧ ok (idx + j) = false) →
      (insertPages docId ok db ps idx).2.2 ≠ none := by
  intro ps
  induction ps with
  | nil =>
    intro db idx ⟨j, hj, _⟩
    simp at hj
  | cons p rest ih =>
    intro db idx ⟨j, hj, hfail⟩
    by_cases h : ok idx
    · simp only [insertPages, h, if_pos]
      cases j with
      | zero => simp at hfail; rw [hfail] at h; simp at h
      | succ j0 =>
        apply ih
        refine ⟨j0, by simpa using hj, ?_⟩
        have : idx + 1 + j0 = idx + (j0 + 1) := by omega
        rw [this]; exact hfail
    · simp [insertPages, h]

/-- When every insert succeeds, insertPages reports no failure and the
returned rows carry exactly the input page numbers and contents. -/
theorem insertPages_all_ok (docId : Nat) (ok : Nat → Bool)
    (hok : ∀ i, ok i = true) :
    ∀ (ps : List PdfPage) (db : Db) (idx : Nat),
      (insertPages docId ok db ps idx).2.2 = none ∧
      ((insertPages docId ok db ps idx).2.1).map
          (fun r => (r.pageNumber, r.content)) =
        ps.map (fun p => (p.number, p.content)) ∧
      ∀ r ∈ (insertPages docId ok db ps idx).2.1, r.documentId = docId := by
  intro ps
  induction ps with
  | nil => intro db idx; refine ⟨rfl, rfl, by intro r hr; simp [insertPages] at hr⟩
  | cons p rest ih =>
    intro db idx
    have h := hok idx
    simp only [insertPages, h, if_pos]
    obtain ⟨h1, h2, h3⟩ := ih { db with pages := db.pages ++ [⟨db.nextId, docId, p.number, p.content⟩], nextId := db.nextId + 1 } (idx + 1)
    refine ⟨h1, by simpa using h2, ?_⟩
    intro r hr
    simp at hr
    rcases hr with hr | hr
    · rw [hr]
    · exact h3 r hr

/-- Page numbers produced by numberPages starting at index i are the
contiguous range i+1, i+2, ..., i+n. -/
theorem numberPages_numbers :
    ∀ (texts : List String) (i : Nat),
      (numberPages i texts).map (fun p => p.number) =
        List.range' (i + 1) texts.length := by
  intro texts
  induction texts with
  | nil => intro i; rfl
  | cons t rest ih =>
    intro i
    simp only [numberPages, List.map_cons, List.length_cons, List.range'_succ]
    exact congrArg _ (ih (i + 1))

/-- numberPages keeps the number of pages. -/
theorem numberPages_length :
    ∀ (texts : List String) (i : Nat),
      (numberPages i texts).length = texts.length := by
  intro texts
  induction texts with
  | nil => intro i; rfl
  | cons t rest ih =>
    intro i
    simp only [numberPages, List.length_cons]
    exact congrArg _ (ih (i + 1))

/-! Claim C1. -/

/-- C1 counterexample: with an empty database, a two-page extraction and
a failure of the second page insert, create returns an error, yet the
Document row and the first Page row remain persisted — refuting the
claim that after a page-insert failure no Document row and no Page rows
remain. -/
theorem c1_counterexample :
    create db0 "alice" "Doc" true true (.ok ["a", "b"]) true
        (fun i => i == 0) =
      (⟨[⟨0, "Doc", "alice"⟩], [⟨1, 0, 1, "a"⟩], [], 2⟩,
        .error "Failed to create document: Failed to process page 2: Failed to save page") := by
  rfl

/-- C1 amended: if extraction succeeds but some page insert fails, then
create fails with an error, but the Document row inserted before the
page inserts remains persisted in the final database state (creation is
not atomic across the Document and its Pages). -/
theorem c1_create_not_atomic (db : Db) (userId name : String)
    (readerDocs : Except String (List String)) (ps : List PdfPage)
    (pageOk : Nat → Bool)
    (hr : getPdfContent readerDocs = .ok ps)
    (hfail : ∃ j, j < ps.length ∧ pageOk j = false) :
    ∃ db' msg,
      create db userId name true true readerDocs true pageOk = (db', .error msg) ∧
      (⟨db.nextId, name, userId⟩ : DocumentRow) ∈ db'.documents := by
  have hfail0 : ∃ j, j < ps.length ∧ pageOk (0 + j) = false := by
    obtain ⟨j, hj, hf⟩ := hfail
    exact ⟨j, hj, by simpa using hf⟩
  have herr := insertPages_err_of_fail db.nextId pageOk ps
    (afterDocInsert db userId name) 0 hfail0
  cases hres : (insertPages db.nextId pageOk
      (afterDocInsert db userId name) ps 0).2.2 with
  | none => exact absurd hres herr
  | some i =>
    have hc : create db userId name true true readerDocs true pageOk =
        ((insertPages db.nextId pageOk (afterDocInsert db userId name) ps 0).1,
         .error ("Failed to create document: Failed to process page "
           ++ toString (i + 1) ++ ": Failed to save page")) := by
      simp [create, hr, hres]
    refine ⟨(insertPages db.nextId pageOk (afterDocInsert db userId name) ps 0).1,
      _, hc, ?_⟩
    have hdocs := insertPages_documents db.nextId pageOk ps
      (afterDocInsert db userId name) 0
    rw [hdocs]
    simp [afterDocInsert]

/-- C1 witness. -/
theorem c1_create_not_atomic_witness :
    ∃ db' msg,
      create db0 "alice" "Doc" true true (.ok ["a", "b"]) true
          (fun i => i == 0) = (db', .error msg) ∧
      (⟨0, "Doc", "alice"⟩ : DocumentRow) ∈ db'.documents :=
  c1_create_not_atomic db0 "alice" "Doc" (.ok ["a", "b"])
    [⟨1, "a"⟩, ⟨2, "b"⟩] (fun i => i == 0) rfl ⟨1, by decide, by decide⟩

/-! Claim C2. -/

/-- C2 counterexample: when the parsing service returns zero pages for a
(non-empty) input, getPdfContent reports success with an empty page
list, and create succeeds and persists a Document row with zero Page
rows — refuting the claim that a zero-page extraction is treated as a
failure. -/
theorem c2_counterexample :
    getPdfContent (.ok []) = .ok [] ∧
    create db0 "alice" "Doc" true true (.ok []) true (fun _ => true) =
      (⟨[⟨0, "Doc", "alice"⟩], [], [], 1⟩, .ok ⟨0, []⟩) := by
  exact ⟨rfl, rfl⟩

/-- C2 amended: a zero-page extractor result is treated as a success:
for every database state, create with an empty parsed-document list
succeeds, inserts the Document row, and returns an empty page list, so
a document with no pages is persisted. -/
theorem c2_zero_pages_success (db : Db) (userId name : String)
    (pageOk : Nat → Bool) :
    create db userId name true true (.ok []) true pageOk =
      (afterDocInsert db userId name, .ok ⟨db.nextId, []⟩) := by
  rfl

/-! Claim C9. -/

/-- C9 confirmed: for every successful extraction and fully successful
page persistence, create succeeds and the returned pages are numbered
1..N contiguously, with N the number of pages reported by the extractor,
and these ordinals are unique within the document. -/
theorem c9_pages_contiguous (db : Db) (userId name : String)
    (readerDocs : Except String (List String)) (ps : List PdfPage)
    (pageOk : Nat → Bool)
    (hr : getPdfContent readerDocs = .ok ps)
    (hok : ∀ i, pageOk i = true) :
    ∃ db' res,
      create db userId name true true readerDocs true pageOk = (db', .ok res) ∧
      res.pages.map (fun r => r.pageNumber) = List.range' 1 ps.length ∧
      (res.pages.map (fun r => r.pageNumber)).Nodup ∧
      res.pages.length = ps.length := by
  have hall := insertPages_all_ok db.nextId pageOk hok ps
    (afterDocInsert db userId name) 0
  obtain ⟨hnone, hrows, _⟩ := hall
  -- ps comes from numberPages, so its numbers are the contiguous range
  obtain ⟨texts, htexts⟩ : ∃ texts, readerDocs = .ok texts ∧ ps = numberPages 0 texts := by
    cases readerDocs with
    | error e => simp [getPdfContent] at hr
    | ok texts =>
      refine ⟨texts, rfl, ?_⟩
      simpa [getPdfContent] using hr.symm
  obtain ⟨-, hps⟩ := htexts
  have hnum : ps.map (fun p => p.number) = List.range' 1 ps.length := by
    rw [hps, numberPages_numbers, numberPages_length]
  have hrowsnum :
      ((insertPages db.nextId pageOk
        (afterDocInsert db userId name) ps 0).2.1).map (fun r => r.pageNumber) =
        ps.map (fun p => p.number) := by
    have := congrArg (List.map Prod.fst) hrows
    simpa [List.map_map, Function.comp] using this
  have hc : create db userId name true true readerDocs true pageOk =
      ((insertPages db.nextId pageOk (afterDocInsert db userId name) ps 0).1,
       .ok ⟨db.nextId,
         (insertPages db.nextId pageOk (afterDocInsert db userId name) ps 0).2.1⟩) := by
    simp [create, hr, hnone]
  refine ⟨(insertPages db.nextId pageOk (afterDocInsert db userId name) ps 0).1,
    ⟨db.nextId, (insertPages db.nextId pageOk (afterDocInsert db userId name) ps 0).2.1⟩,
    hc, ?_, ?_, ?_⟩
  · rw [hrowsnum, hnum]
  · rw [hrowsnum, hnum]
    exact List.nodup_range' 1 ps.length
  · have := congrArg List.length hrowsnum
    simpa using this.trans (by simp)

/-- C9 witness. -/
theorem c9_pages_contiguous_witness :
    ∃ db' res,
      create db0 "alice" "Doc" true true (.ok ["a", "b", "c"]) true
          (fun _ => true) = (db', .ok res) ∧
      res.pages.map (fun r => r.pageNumber) =
        List.range' 1 ([(⟨1, "a"⟩ : PdfPage), ⟨2, "b"⟩, ⟨3, "c"⟩]).length ∧
      (res.pages.map (fun r => r.pageNumber)).Nodup ∧
      res.pages.length = ([(⟨1, "a"⟩ : PdfPage), ⟨2, "b"⟩, ⟨3, "c"⟩]).length :=
  c9_pages_contiguous db0 "alice" "Doc" (.ok ["a", "b", "c"])
    [⟨1, "a"⟩, ⟨2, "b"⟩, ⟨3, "c"⟩] (fun _ => true) rfl (fun _ => rfl)

/-! Characterization of the generation fan-out. -/

/-- runPage leaves documents and pages untouched; it appends the new
audio row exactly when all three steps succeed, and the result entry is
keyed by the page id with the success flag matching attemptOk. -/
theorem runPage_spec (o : GenOracles) (bucket voice : String) (now : Nat)
    (db : Db) (p : PageRow) :
    (runPage o bucket voice now db p).1.documents = db.documents ∧
    (runPage o bucket voice now db p).1.pages = db.pages ∧
    (runPage o bucket voice now db p).1.audioFiles =
      db.audioFiles ++
        (if attemptOk o voice p then
          [⟨db.nextId, p.id, audioFileName p now,
            "https://fly.storage.tigris.dev/" ++ bucket ++ "/audio/" ++ audioFileName p now⟩]
         else []) ∧
    (runPage o bucket voice now db p).2.pageId = p.id ∧
    (runPage o bucket voice now db p).2.isSuccess = attemptOk o voice p := by
  cases h1 : generateAudio o.synthesize p.content voice with
  | error e =>
    simp [runPage, attemptOk, exceptOk, h1, PageResult.pageId, PageResult.isSuccess]
  | ok buf =>
    cases h2 : o.upload p.id with
    | error e =>
      simp [runPage, saveAudioFile, attemptOk, exceptOk, h1, h2,
        PageResult.pageId, PageResult.isSuccess]
    | ok u =>
      cases h3 : o.insertAudio p.id with
      | error e =>
        simp [runPage, saveAudioFile, attemptOk, exceptOk, h1, h2, h3,
          PageResult.pageId, PageResult.isSuccess]
      | ok v =>
        simp [runPage, saveAudioFile, attemptOk, exceptOk, h1, h2, h3,
          PageResult.pageId, PageResult.isSuccess]

/-- runPages never changes the documents and pages tables, only appends
audio rows: one per fully successful page, keyed by that page id, and
returns one result entry per input page, keyed by page id, with the
success flag matching attemptOk. -/
theorem runPages_spec (o : GenOracles) (bucket voice : String) (now : Nat) :
    ∀ (ps : List PageRow) (db : Db),
      (runPages o bucket voice now db ps).1.documents = db.documents ∧
      (runPages o bucket voice now db ps).1.pages = db.pages ∧
      (∃ newRows : List AudioFileRow,
        (runPages o bucket voice now db ps).1.audioFiles = db.audioFiles ++ newRows ∧
        newRows.map (fun a => a.pageId) =
          (ps.filter (fun p => attemptOk o voice p)).map (fun p => p.id)) ∧
      ((runPages o bucket voice now db ps).2).map
          (fun r => (r.pageId, r.isSuccess)) =
        ps.map (fun p => (p.id, attemptOk o voice p)) := by
  intro ps
  induction ps with
  | nil =>
    intro db
    exact ⟨rfl, rfl, ⟨[], by simp [runPages], rfl⟩, rfl⟩
  | cons p rest ih =>
    intro db
    obtain ⟨hd1, hp1, hrow1, hid1, hs1⟩ := runPage_spec o bucket voice now db p
    obtain ⟨hd2, hp2, ⟨nr, hnr, hnrmap⟩, hres2⟩ := ih (runPage o bucket voice now db p).1
    refine ⟨?_, ?_, ?_, ?_⟩
    · show (runPages o bucket voice now (runPage o bucket voice now db p).1 rest).1.documents = _
      rw [hd2, hd1]
    · show (runPages o bucket voice now (runPage o bucket voice now db p).1 rest).1.pages = _
      rw [hp2, hp1]
    · by_cases hok : attemptOk o voice p
      · refine ⟨⟨db.nextId, p.id, audioFileName p now,
          "https://fly.storage.tigris.dev/" ++ bucket ++ "/audio/" ++ audioFileName p now⟩ :: nr,
          ?_, ?_⟩
        · show (runPages o bucket voice now (runPage o bucket voice now db p).1 rest).1.audioFiles = _
          rw [hnr, hrow1]
          simp [hok]
        · simp [hok, hnrmap]
      · refine ⟨nr, ?_, ?_⟩
        · show (runPages o bucket voice now (runPage o bucket voice now db p).1 rest).1.audioFiles = _
          rw [hnr, hrow1]
          simp [hok]
        · simp [hok, hnrmap]
    · show ((runPage o bucket voice now db p).2 ::
          (runPages o bucket voice now (runPage o bucket voice now db p).1 rest).2).map
            (fun r => (r.pageId, r.isSuccess)) = _
      simp only [List.map_cons, hres2, hid1, hs1, List.map]

/-! Claim C3. -/

/-- C3 counterexample: the database holds only page id 7, the request
names pages 7 and 999; the response has a single entry (for page 7) and
nothing for 999 — refuting the claim that every requested page id gets a
result entry. -/
theorem c3_counterexample :
    ((generateAudioBook oAllOk "bucket" db3 1 [7, 999] "voiceX" 0 true).2).map
        (fun rs => rs.map PageResult.pageId) = .ok [7] ∧
    ([7, 999] : List Nat).length = 2 := by
  exact ⟨rfl, rfl⟩

/-- C3 amended: the batch returns exactly one entry per requested page
id that exists in the pages table (in table order); requested ids with
no stored page are silently dropped from the response. -/
theorem c3_results_match_found_pages (o : GenOracles) (bucket : String)
    (db : Db) (documentId : Nat) (pageIds : List Nat) (voice : String)
    (now : Nat) :
    ((generateAudioBook o bucket db documentId pageIds voice now true).2).map
        (fun rs => rs.map PageResult.pageId) =
      .ok ((db.pages.filter (fun p => pageIds.contains p.id)).map (fun p => p.id)) := by
  obtain ⟨-, -, -, hres⟩ := runPages_spec o bucket voice now
    (db.pages.filter (fun p => pageIds.contains p.id)) db
  have hfst := congrArg (List.map Prod.fst) hres
  simp only [List.map_map] at hfst
  simp only [generateAudioBook, Bool.true_eq_false, if_neg, Bool.false_eq_true,
    not_false_iff, Except.map]
  refine congrArg Except.ok ?_
  simpa [Function.comp] using hfst

/-! Claim C4. -/

/-- C4 counterexample: page id 5 belongs to document 2, yet a batch for
document 1 naming page 5 processes it: a success entry is returned for
page 5 and an audio row for page 5 is persisted — refuting the claim
that a page of a different document is not processed. -/
theorem c4_counterexample :
    ((generateAudioBook oAllOk "bucket" db4 1 [5] "voiceX" 0 true).2).map
        (fun rs => rs.map (fun r => (r.pageId, r.isSuccess))) = .ok [(5, true)] ∧
    ((generateAudioBook oAllOk "bucket" db4 1 [5] "voiceX" 0 true).1.audioFiles).map
        (fun a => a.pageId) = [5] := by
  exact ⟨rfl, rfl⟩

/-- C4 amended: no document-membership validation takes place: every
stored page whose id is among the requested ids is processed and gets a
result entry, even when its documentId differs from the documentId of
the request. -/
theorem c4_no_document_check (o : GenOracles) (bucket : String) (db : Db)
    (documentId : Nat) (pageIds : List Nat) (voice : String) (now : Nat)
    (p : PageRow) (hp : p ∈ db.pages) (hpid : pageIds.contains p.id = true)
    (hother : p.documentId ≠ documentId) :
    ∃ rs, (generateAudioBook o bucket db documentId pageIds voice now true).2 =
        .ok rs ∧ ∃ r ∈ rs, r.pageId = p.id := by
  obtain ⟨-, -, -, hres⟩ := runPages_spec o bucket voice now
    (db.pages.filter (fun q => pageIds.contains q.id)) db
  refine ⟨(runPages o bucket voice now db
    (db.pages.filter (fun q => pageIds.contains q.id))).2, ?_, ?_⟩
  · simp [generateAudioBook]
  · have hpf : p ∈ db.pages.filter (fun q => pageIds.contains q.id) :=
      List.mem_filter.mpr ⟨hp, hpid⟩
    have hmem : (p.id, attemptOk o voice p) ∈
        ((runPages o bucket voice now db
          (db.pages.filter (fun q => pageIds.contains q.id))).2).map
            (fun r => (r.pageId, r.isSuccess)) := by
      rw [hres]
      exact List.mem_map.mpr ⟨p, hpf, rfl⟩
    obtain ⟨r, hr, hreq⟩ := List.mem_map.mp hmem
    exact ⟨r, hr, congrArg Prod.fst hreq⟩

/-- C4 witness. -/
theorem c4_no_document_check_witness :
    ∃ rs, (generateAudioBook oAllOk "bucket" db4 1 [5] "voiceX" 0 true).2 =
        .ok rs ∧ ∃ r ∈ rs, r.pageId = (⟨5, 2, 1, "text"⟩ : PageRow).id :=
  c4_no_document_check oAllOk "bucket" db4 1 [5] "voiceX" 0
    ⟨5, 2, 1, "text"⟩ (by simp [db4]) (by decide) (by decide)

/-! Claim C6. -/

/-- C6 counterexample: synthesis invoked on the empty string is not
rejected: with a synthesizer oracle that answers the empty text, an
audio buffer is produced, and a batch over a page whose stored content
is empty persists an AudioFile row for it — refuting the claim that
empty text fails with InvalidInput and that no empty-text artifact is
stored. -/
theorem c6_counterexample :
    generateAudio oAllOk.synthesize "" "voiceX" = .ok [0] ∧
    ((generateAudioBook oAllOk "bucket" db6 1 [3] "voiceX" 0 true).1.audioFiles).map
        (fun a => a.pageId) = [3] := by
  exact ⟨rfl, rfl⟩

/-- C6 amended: the code has no empty- or whitespace-text guard and no
InvalidInput error: the empty text is handed to the synthesizer like any
other input, and when the synthesizer, the store and the insert succeed
for a page whose content is empty, the batch reports success for it and
persists an AudioFile row; retries (in trigger.config.ts) apply
uniformly to every failure, maxAttempts 3, with no non-retryable
carve-out. -/
theorem c6_empty_text_not_rejected (o : GenOracles) (bucket voice : String)
    (db : Db) (now : Nat) (p : PageRow)
    (hp : p ∈ db.pages) (hpc : p.content = "")
    (hsynth : exceptOk (generateAudio o.synthesize "" voice) = true)
    (hupload : exceptOk (o.upload p.id) = true)
    (hinsert : exceptOk (o.insertAudio p.id) = true) :
    (∃ rs, (generateAudioBook o bucket db p.documentId [p.id] voice now true).2 =
        .ok rs ∧ ∃ r ∈ rs, r.pageId = p.id ∧ r.isSuccess = true) ∧
    (∃ a ∈ (generateAudioBook o bucket db p.documentId [p.id] voice now true).1.audioFiles,
        a.pageId = p.id) ∧
    triggerDefaultRetry.maxAttempts = 3 := by
  have hok : attemptOk o voice p = true := by
    simp [attemptOk, hpc, hsynth, hupload, hinsert]
  obtain ⟨-, -, ⟨nr, hnr, hnrmap⟩, hres⟩ := runPages_spec o bucket voice now
    (db.pages.filter (fun q => ([p.id] : List Nat).contains q.id)) db
  have hpf : p ∈ db.pages.filter (fun q => ([p.id] : List Nat).contains q.id) :=
    List.mem_filter.mpr ⟨hp, by simp⟩
  refine ⟨⟨(runPages o bucket voice now db
      (db.pages.filter (fun q => ([p.id] : List Nat).contains q.id))).2, ?_, ?_⟩, ?_, rfl⟩
  · simp [generateAudioBook]
  · have hmem : (p.id, true) ∈
        ((runPages o bucket voice now db
          (db.pages.filter (fun q => ([p.id] : List Nat).contains q.id))).2).map
            (fun r => (r.pageId, r.isSuccess)) := by
      rw [hres]
      exact List.mem_map.mpr ⟨p, hpf, by rw [hok]⟩
    obtain ⟨r, hr, hreq⟩ := List.mem_map.mp hmem
    exact ⟨r, hr, congrArg Prod.fst hreq, congrArg Prod.snd hreq⟩
  · have hidmem : p.id ∈ nr.map (fun a => a.pageId) := by
      rw [hnrmap]
      exact List.mem_map.mpr ⟨p, List.mem_filter.mpr ⟨hpf, hok⟩, rfl⟩
    obtain ⟨a, ha, haeq⟩ := List.mem_map.mp hidmem
    refine ⟨a, ?_, haeq⟩
    have : (generateAudioBook o bucket db p.documentId [p.id] voice now true).1.audioFiles =
        db.audioFiles ++ nr := by
      simpa [generateAudioBook] using hnr
    rw [this]
    exact List.mem_append_right _ ha

/-- C6 witness. -/
theorem c6_empty_text_not_rejected_witness :
    (∃ rs, (generateAudioBook oAllOk "bucket" db6
        (⟨3, 1, 1, ""⟩ : PageRow).documentId [(⟨3, 1, 1, ""⟩ : PageRow).id]
        "voiceX" 0 true).2 =
        .ok rs ∧ ∃ r ∈ rs, r.pageId = (⟨3, 1, 1, ""⟩ : PageRow).id ∧ r.isSuccess = true) ∧
    (∃ a ∈ (generateAudioBook oAllOk "bucket" db6
        (⟨3, 1, 1, ""⟩ : PageRow).documentId [(⟨3, 1, 1, ""⟩ : PageRow).id]
        "voiceX" 0 true).1.audioFiles,
        a.pageId = (⟨3, 1, 1, ""⟩ : PageRow).id) ∧
    triggerDefaultRetry.maxAttempts = 3 :=
  c6_empty_text_not_rejected oAllOk "bucket" "voiceX" db6 0 ⟨3, 1, 1, ""⟩
    (by simp [db6]) rfl rfl rfl rfl

/-! Claim C7. -/

/-- C7 confirmed: in one batch, a page whose attempt fails terminally
does not disturb a page whose attempt succeeds: the batch returns one
terminal entry per selected page, a success entry for the succeeding
page and a failure entry for the failing one, the audio ledger is only
appended to (nothing is rolled back), and the succeeding page has its
new AudioFile row among the appended rows. -/
theorem c7_partial_failure_isolation (o : GenOracles) (bucket : String)
    (db : Db) (documentId : Nat) (pageIds : List Nat) (voice : String)
    (now : Nat) (p q : PageRow)
    (hp : p ∈ db.pages) (hpid : pageIds.contains p.id = true)
    (hpok : attemptOk o voice p = true)
    (hq : q ∈ db.pages) (hqid : pageIds.contains q.id = true)
    (hqok : attemptOk o voice q = false) :
    ∃ rs, (generateAudioBook o bucket db documentId pageIds voice now true).2 =
        .ok rs ∧
      rs.length = (db.pages.filter (fun x => pageIds.contains x.id)).length ∧
      (∃ r ∈ rs, r.pageId = p.id ∧ r.isSuccess = true) ∧
      (∃ r ∈ rs, r.pageId = q.id ∧ r.isSuccess = false) ∧
      ∃ newRows,
        (generateAudioBook o bucket db documentId pageIds voice now true).1.audioFiles =
          db.audioFiles ++ newRows ∧
        p.id ∈ newRows.map (fun a => a.pageId) := by
  obtain ⟨-, -, ⟨nr, hnr, hnrmap⟩, hres⟩ := runPages_spec o bucket voice now
    (db.pages.filter (fun x => pageIds.contains x.id)) db
  have hpf : p ∈ db.pages.filter (fun x => pageIds.contains x.id) :=
    List.mem_filter.mpr ⟨hp, hpid⟩
  have hqf : q ∈ db.pages.filter (fun x => pageIds.contains x.id) :=
    List.mem_filter.mpr ⟨hq, hqid⟩
  refine ⟨(runPages o bucket voice now db
      (db.pages.filter (fun x => pageIds.contains x.id))).2, ?_, ?_, ?_, ?_, ?_⟩
  · simp [generateAudioBook]
  · have := congrArg List.length hres
    simpa using this
  · have hmem : (p.id, true) ∈
        ((runPages o bucket voice now db
          (db.pages.filter (fun x => pageIds.contains x.id))).2).map
            (fun r => (r.pageId, r.isSuccess)) := by
      rw [hres]
      exact List.mem_map.mpr ⟨p, hpf, by rw [hpok]⟩
    obtain ⟨r, hr, hreq⟩ := List.mem_map.mp hmem
    exact ⟨r, hr, congrArg Prod.fst hreq, congrArg Prod.snd hreq⟩
  · have hmem : (q.id, false) ∈
        ((runPages o bucket voice now db
          (db.pages.filter (fun x => pageIds.contains x.id))).2).map
            (fun r => (r.pageId, r.isSuccess)) := by
      rw [hres]
      exact List.mem_map.mpr ⟨q, hqf, by rw [hqok]⟩
    obtain ⟨r, hr, hreq⟩ := List.mem_map.mp hmem
    exact ⟨r, hr, congrArg Prod.fst hreq, congrArg Prod.snd hreq⟩
  · refine ⟨nr, by simpa [generateAudioBook] using hnr, ?_⟩
    rw [hnrmap]
    exact List.mem_map.mpr ⟨p, List.mem_filter.mpr ⟨hpf, hpok⟩, rfl⟩

/-- C7 witness. -/
theorem c7_partial_failure_isolation_witness :
    ∃ rs, (generateAudioBook oMixed "bucket" db7 1 [1, 2] "voiceX" 0 true).2 =
        .ok rs ∧
      rs.length = (db7.pages.filter (fun x => ([1, 2] : List Nat).contains x.id)).length ∧
      (∃ r ∈ rs, r.pageId = (⟨1, 1, 1, "good"⟩ : PageRow).id ∧ r.isSuccess = true) ∧
      (∃ r ∈ rs, r.pageId = (⟨2, 1, 2, "bad"⟩ : PageRow).id ∧ r.isSuccess = false) ∧
      ∃ newRows,
        (generateAudioBook oMixed "bucket" db7 1 [1, 2] "voiceX" 0 true).1.audioFiles =
          db7.audioFiles ++ newRows ∧
        (⟨1, 1, 1, "good"⟩ : PageRow).id ∈ newRows.map (fun a => a.pageId) :=
  c7_partial_failure_isolation oMixed "bucket" db7 1 [1, 2] "voiceX" 0
    ⟨1, 1, 1, "good"⟩ ⟨2, 1, 2, "bad"⟩
    (by simp [db7]) (by decide) (by decide)
    (by simp [db7]) (by decide) (by decide)

/-! Claim C8. -/

/-- C8 confirmed: in one batch, every AudioFile row appended to the
ledger belongs to a selected page whose synthesis and storage both
succeeded, and a page whose attempt failed at any step gets no new
AudioFile row (page ids assumed unique in the pages table). -/
theorem c8_no_row_on_failure (o : GenOracles) (bucket : String) (db : Db)
    (documentId : Nat) (pageIds : List Nat) (voice : String) (now : Nat)
    (hnodup : (db.pages.map (fun x => x.id)).Nodup)
    (p : PageRow) (hp : p ∈ db.pages) (hpid : pageIds.contains p.id = true)
    (hfail : attemptOk o voice p = false) :
    (∀ a ∈ ((generateAudioBook o bucket db documentId pageIds voice now true).1.audioFiles).drop
        db.audioFiles.length,
      ∃ x ∈ db.pages, pageIds.contains x.id = true ∧ x.id = a.pageId ∧
        exceptOk (generateAudio o.synthesize x.content voice) = true ∧
        exceptOk (o.upload x.id) = true) ∧
    p.id ∉ ((((generateAudioBook o bucket db documentId pageIds voice now true).1.audioFiles).drop
        db.audioFiles.length).map (fun a => a.pageId)) := by
  obtain ⟨-, -, ⟨nr, hnr, hnrmap⟩, -⟩ := runPages_spec o bucket voice now
    (db.pages.filter (fun x => pageIds.contains x.id)) db
  have hgen : (generateAudioBook o bucket db documentId pageIds voice now true).1.audioFiles =
      db.audioFiles ++ nr := by
    simpa [generateAudioBook] using hnr
  have hdrop : ((generateAudioBook o bucket db documentId pageIds voice now true).1.audioFiles).drop
      db.audioFiles.length = nr := by
    rw [hgen]
    exact List.drop_left _ _
  rw [hdrop]
  constructor
  · intro a ha
    have : a.pageId ∈ nr.map (fun a => a.pageId) := List.mem_map.mpr ⟨a, ha, rfl⟩
    rw [hnrmap] at this
    obtain ⟨x, hx, hxid⟩ := List.mem_map.mp this
    obtain ⟨hxf, hxok⟩ := List.mem_filter.mp hx
    obtain ⟨hxp, hxids⟩ := List.mem_filter.mp hxf
    simp only [attemptOk, Bool.and_eq_true] at hxok
    exact ⟨x, hxp, hxids, hxid, hxok.1.1, hxok.1.2⟩
  · intro hmem
    rw [hnrmap] at hmem
    obtain ⟨x, hx, hxid⟩ := List.mem_map.mp hmem
    obtain ⟨hxf, hxok⟩ := List.mem_filter.mp hx
    obtain ⟨hxp, -⟩ := List.mem_filter.mp hxf
    have hxe : x = p := List.inj_on_of_nodup_map hnodup hxp hp hxid
    rw [hxe] at hxok
    rw [hxok] at hfail
    exact Bool.true_eq_false.mp hfail

/-- C8 witness. -/
theorem c8_no_row_on_failure_witness :
    (∀ a ∈ ((generateAudioBook oMixed "bucket" db7 1 [1, 2] "voiceX" 0 true).1.audioFiles).drop
        db7.audioFiles.length,
      ∃ x ∈ db7.pages, ([1, 2] : List Nat).contains x.id = true ∧ x.id = a.pageId ∧
        exceptOk (generateAudio oMixed.synthesize x.content "voiceX") = true ∧
        exceptOk (oMixed.upload x.id) = true) ∧
    (⟨2, 1, 2, "bad"⟩ : PageRow).id ∉
      ((((generateAudioBook oMixed "bucket" db7 1 [1, 2] "voiceX" 0 true).1.audioFiles).drop
        db7.audioFiles.length).map (fun a => a.pageId)) :=
  c8_no_row_on_failure oMixed "bucket" db7 1 [1, 2] "voiceX" 0 (by decide)
    ⟨2, 1, 2, "bad"⟩ (by simp [db7]) (by decide) (by decide)

/-! Closed form of the delete mutation. -/

/-- Every run of deleteDocument executes all three steps in order and
succeeds: the truthiness checks always pass, so the final state filters
the three tables and the returned result is ok, carrying the number of
document rows that matched. -/
theorem deleteDocument_eq (caller : String) (db : Db) (id : Nat) :
    deleteDocument caller db id =
      ({ documents := db.documents.filter (fun d => !(d.id == id)),
         pages := db.pages.filter (fun p => !(p.documentId == id)),
         audioFiles :=
           if (associatedPagesId db id).isEmpty then db.audioFiles
           else db.audioFiles.filter (fun a => !((associatedPagesId db id).contains a.pageId)),
         nextId := db.nextId },
       .ok ⟨(db.documents.filter (fun d => d.id == id)).length⟩) := by
  by_cases h : (associatedPagesId db id).isEmpty <;>
    simp [deleteDocument, deleteAudioStep, deletePagesStep, deleteDocStep, jsTruthy, h]

/-! Claim C5. -/

/-- C5 counterexample: deleting a document id that does not exist: the
pages step and the document step each affect zero rows (the caller
named a document it expected to delete), yet no step fails, all three
steps proceed, and the call reports success with rowCount 0 — refuting
the claim that a zero-affected-rows step fails with DeleteFailed and
stops the sequence. -/
theorem c5_counterexample :
    deleteDocument "mallory" db3 42 = (db3, .ok ⟨0⟩) := by
  rfl

/-- C5 amended: deletion does proceed in dependency order AudioFiles,
Pages, Document, but it never fails: the zero-affected-rows checks test
the truthiness of the driver result object, which is always truthy, so
every step always proceeds and the call reports success; after it, no
document row with the given id and no page row of that document
remains, and when the document existed no audio row of its pages
remains. -/
theorem c5_delete_order_no_failure (caller : String) (db : Db) (id : Nat) :
    exceptOk (deleteDocument caller db id).2 = true ∧
    (∀ d ∈ (deleteDocument caller db id).1.documents, d.id ≠ id) ∧
    (∀ p ∈ (deleteDocument caller db id).1.pages, p.documentId ≠ id) ∧
    ((db.documents.find? (fun d => d.id == id)).isSome = true →
      ∀ a ∈ (deleteDocument caller db id).1.audioFiles,
        a.pageId ∉ (db.pages.filter (fun p => p.documentId == id)).map (fun p => p.id)) := by
  rw [deleteDocument_eq]
  refine ⟨rfl, ?_, ?_, ?_⟩
  · intro d hd
    have := (List.mem_filter.mp hd).2
    simpa using this
  · intro p hp
    have := (List.mem_filter.mp hp).2
    simpa using this
  · intro hsome a ha
    have hassoc : associatedPagesId db id =
        (db.pages.filter (fun p => p.documentId == id)).map (fun p => p.id) := by
      unfold associatedPagesId
      cases hfind : db.documents.find? (fun d => d.id == id) with
      | none => rw [hfind] at hsome; simp at hsome
      | some d => rfl
    by_cases hemp : (associatedPagesId db id).isEmpty
    · rw [hassoc] at hemp
      rw [List.isEmpty_iff] at hemp
      rw [hemp]
      simp
    · rw [if_neg hemp] at ha
      have := (List.mem_filter.mp ha).2
      rw [hassoc] at this
      simp only [Bool.not_eq_true'] at this
      intro hmem
      have hc : List.contains
          ((db.pages.filter (fun p => p.documentId == id)).map (fun p => p.id))
          a.pageId = true :=
        List.elem_eq_true_of_mem hmem
      rw [hc] at this
      exact Bool.true_eq_false.mp this

/-- C5 witness. -/
theorem c5_delete_order_no_failure_witness :
    exceptOk (deleteDocument "mallory" db3 42).2 = true ∧
    (∀ d ∈ (deleteDocument "mallory" db3 42).1.documents, d.id ≠ 42) ∧
    (∀ p ∈ (deleteDocument "mallory" db3 42).1.pages, p.documentId ≠ 42) ∧
    ((db3.documents.find? (fun d => d.id == 42)).isSome = true →
      ∀ a ∈ (deleteDocument "mallory" db3 42).1.audioFiles,
        a.pageId ∉ (db3.pages.filter (fun p => p.documentId == 42)).map (fun p => p.id)) :=
  c5_delete_order_no_failure "mallory" db3 42

/-! Claim C10. -/

/-- C10 confirmed: the delete mutation ignores the caller identity: the
outcome for any two callers is identical, the call succeeds, and a
document created by a different user is removed together with its pages
all the same — any authenticated user can delete any other user's
document. -/
theorem c10_delete_ignores_caller (db : Db) (id : Nat)
    (caller1 caller2 : String) (d : DocumentRow)
    (hd : d ∈ db.documents) (hid : d.id = id)
    (howner : d.createdById ≠ caller1) :
    deleteDocument caller1 db id = deleteDocument caller2 db id ∧
    exceptOk (deleteDocument caller1 db id).2 = true ∧
    d ∉ (deleteDocument caller1 db id).1.documents ∧
    (∀ p ∈ (deleteDocument caller1 db id).1.pages, p.documentId ≠ id) := by
  refine ⟨rfl, ?_, ?_, ?_⟩
  · rw [deleteDocument_eq]
    rfl
  · rw [deleteDocument_eq]
    intro hmem
    have := (List.mem_filter.mp hmem).2
    rw [hid] at this
    simp at this
  · rw [deleteDocument_eq]
    intro p hp
    have := (List.mem_filter.mp hp).2
    simpa using this

/-- C10 witness: document 2 was created by bob, yet a delete issued by
alice removes it. -/
theorem c10_delete_ignores_caller_witness :
    deleteDocument "alice" db4 2 = deleteDocument "carol" db4 2 ∧
    exceptOk (deleteDocument "alice" db4 2).2 = true ∧
    (⟨2, "B", "bob"⟩ : DocumentRow) ∉ (deleteDocument "alice" db4 2).1.documents ∧
    (∀ p ∈ (deleteDocument "alice" db4 2).1.pages, p.documentId ≠ 2) :=
  c10_delete_ignores_caller db4 2 "alice" "carol" ⟨2, "B", "bob"⟩
    (by simp [db4]) rfl (by decide)

end MiniBootcamp
